import Mathlib

/-! Convolution forward primitive descriptor.

A shallow embedding of `src/common/convolution_pd.hpp`: the class template
`_convolution_fwd_pd_t<with_relu>` with its two instantiations
`convolution_fwd_pd_t` (plain) and `convolution_relu_fwd_pd_t` (fused ReLU).

Conventions of the embedding.

* C `int` values are `Int`.  The arithmetic of the header is `index - 1` on
  `index ∈ {1, 2}`, `2 + with_bias()`, `2 + with_groups()` and
  `3 + with_groups()`, which stay within the range of `int`, and
  `src_desc.ndims + 1`, which is taken with 32-bit two's-complement wrap-around
  (`wrap_int`), as it leaves the range of `int` at `src_desc.ndims = INT_MAX`.
* A pointer that may be null is an `Option`; a pointer to the stored, immutable
  descriptor is the descriptor value itself.
* The `void *result` out-parameter of `query` is passed as state: `query` takes
  the slot's content before the call and returns the status together with the
  slot's content after the call.
* The virtual functions `src_pd`, `weights_pd` and `dst_pd`, which concrete
  subclasses override, are fields of the descriptor object.
* The types and helpers declared in headers other than
  `convolution_pd.hpp` are modelled from the specification and marked so.
-/

namespace mkldnn.impl

/-! ## Types declared outside `convolution_pd.hpp` -/

/-- Modelled from the spec: the raw dimension array `dims_t` (declared in
`mkldnn.h`, which is not among the sources).  A fixed-capacity array of `int`
is kept as the list of its entries. -/
abbrev dims_t := List Int

/-- The array read `a[i]` on a raw dimension array; entries past the listed
ones are zero. -/
def dims_t.item (a : dims_t) (i : Nat) : Int := a.getD i 0

/-- The value of a C `int` addition as the 32-bit machine computes it: the
exact sum reduced to the range `-2147483648 .. 2147483647` by two's-complement
wrap-around. -/
def wrap_int (x : Int) : Int := (x + 2147483648) % 4294967296 - 2147483648

/-- Modelled from the spec: the memory descriptor `memory_desc_t` (declared in
`mkldnn.h`, which is not among the sources), an "opaque comparable value
describing tensor shape": its rank and its dimension array. -/
structure memory_desc_t where
  ndims : Int
  dims : dims_t
deriving DecidableEq, Repr

/-- Modelled from the spec: `memory_desc_wrapper::is_zero` (declared in a
header that is not among the sources).  The spec calls the no-bias value the
"all zero" sentinel: the descriptor whose rank and dimensions are all zero. -/
def memory_desc_wrapper.is_zero (md : memory_desc_t) : Bool :=
  md.ndims == 0 && md.dims.all (fun x => x == 0)

/-- Modelled from the spec: the C type `double` of the fusion coefficient,
kept as its 64-bit pattern.  The header performs no arithmetic on it. -/
structure double where
  bits : Nat
deriving DecidableEq, Repr

/-- The literal `0.` of the source: positive zero, whose bit pattern is zero. -/
def double.zero : double := ⟨0⟩

/-- Modelled from the spec: the plain raw operator parameters
`convolution_desc_t` (declared in `mkldnn.h`, which is not among the sources)
with the fields the header reads: source, weights, bias and destination
descriptors, strides and the two-level padding table. -/
structure convolution_desc_t where
  src_desc : memory_desc_t
  weights_desc : memory_desc_t
  bias_desc : memory_desc_t
  dst_desc : memory_desc_t
  strides : dims_t
  padding : List dims_t
deriving DecidableEq, Repr

/-- The array read `padding[i][j]` on the padding table. -/
def convolution_desc_t.padding_at (d : convolution_desc_t) (i j : Nat) : Int :=
  dims_t.item (d.padding.getD i []) j

/-- Modelled from the spec: the fused-activation parameters
`convolution_relu_desc_t` (declared in `mkldnn.h`, which is not among the
sources): the embedded plain parameters plus the negative-slope scalar. -/
structure convolution_relu_desc_t where
  convolution_desc : convolution_desc_t
  negative_slope : double
deriving DecidableEq, Repr

/-- Modelled from the spec: the operator-kind tag `primitive_kind_t` (declared
in `c_types_map.hpp`, which is not among the sources). -/
inductive primitive_kind_t where
  | undefined
  | memory
  | view
  | reorder
  | concat
  | convolution
  | relu
  | softmax
  | pooling
  | lrn
  | batch_normalization
  | inner_product
  | convolution_relu
deriving DecidableEq, Repr

/-- Modelled from the spec: the query kind `query_t` (declared in
`c_types_map.hpp`, which is not among the sources): the universal kinds, one
descriptor kind per operator kind, and the memory-descriptor kinds. -/
inductive query_t where
  | undef
  | engine
  | primitive_kind
  | num_of_inputs_s32
  | num_of_outputs_s32
  | time_estimate_f64
  | memory_consumption_s64
  | impl_info_str
  | memory_d
  | convolution_d
  | relu_d
  | softmax_d
  | pooling_d
  | lrn_d
  | batch_normalization_d
  | inner_product_d
  | convolution_relu_d
  | input_pd
  | output_pd
  | src_pd
  | diff_src_pd
  | weights_pd
  | diff_weights_pd
  | dst_pd
  | diff_dst_pd
  | workspace_pd
deriving DecidableEq, Repr

/-- Modelled from the spec: the status code `status_t` (declared in
`c_types_map.hpp`, which is not among the sources); `unimplemented` is the
"unsupported kind" signal. -/
inductive status_t where
  | success
  | out_of_memory
  | try_again
  | invalid_arguments
  | not_ready
  | unimplemented
  | iterator_ends
  | runtime_error
  | not_required
deriving DecidableEq, Repr

/-- Modelled from the spec: `pkind_trait<kind>::query_d` (declared in a header
that is not among the sources), the descriptor query kind of an operator
kind. -/
def pkind_trait.query_d : primitive_kind_t → query_t
  | .memory => .memory_d
  | .convolution => .convolution_d
  | .relu => .relu_d
  | .softmax => .softmax_d
  | .pooling => .pooling_d
  | .lrn => .lrn_d
  | .batch_normalization => .batch_normalization_d
  | .inner_product => .inner_product_d
  | .convolution_relu => .convolution_relu_d
  | _ => query_t.undef

/-- A non-owning pointer (to an engine, to a hinted descriptor): `none` is the
null pointer, `some a` the address `a`. -/
abbrev ptr_t := Option Nat

/-- Modelled from the spec: the memory primitive descriptor `memory_pd_t`
(declared in `memory_pd.hpp`, which is not among the sources), the opaque value
an input or output slot resolves to. -/
structure memory_pd_t where
  desc : memory_desc_t
deriving DecidableEq, Repr

/-! ## The class template `_convolution_fwd_pd_t<with_relu>` -/

/-- The member typedef `base_desc_t`: `convolution_relu_desc_t` when
`with_relu`, else `convolution_desc_t`. -/
abbrev base_desc_t : Bool → Type
  | true => convolution_relu_desc_t
  | false => convolution_desc_t

/-- The static member `base_pkind`: `convolution_relu` when `with_relu`, else
`convolution`. -/
def base_pkind (with_relu : Bool) : primitive_kind_t :=
  if with_relu then primitive_kind_t.convolution_relu else primitive_kind_t.convolution

/-- Modelled from the spec: `op_desc_t` (declared in `c_types_map.hpp`, which
is not among the sources), the "opaque operator-descriptor for generic
(kind-agnostic) code paths": a stored parameter struct of either variant. -/
structure op_desc_t where
  with_relu : Bool
  payload : base_desc_t with_relu

/-- The state of a `_convolution_fwd_pd_t<with_relu>` object.  `engine_` and
`kind_` are the members of the base `primitive_desc_t`; `desc_` and
`hint_fwd_pd_` are the protected members of the class; `src_pd`, `weights_pd`
and `dst_pd` are the virtual functions the concrete subclass supplies, as the
values they return on this object. -/
structure _convolution_fwd_pd_t (with_relu : Bool) where
  engine_ : ptr_t
  kind_ : primitive_kind_t
  desc_ : base_desc_t with_relu
  hint_fwd_pd_ : ptr_t
  src_pd : Option memory_pd_t
  weights_pd : Int → Option memory_pd_t
  dst_pd : Option memory_pd_t

/-- The instantiation `convolution_fwd_pd_t = _convolution_fwd_pd_t<false>`. -/
abbrev convolution_fwd_pd_t := _convolution_fwd_pd_t false

/-- The instantiation
`convolution_relu_fwd_pd_t = _convolution_fwd_pd_t<true>`. -/
abbrev convolution_relu_fwd_pd_t := _convolution_fwd_pd_t true

/-- The virtual functions a concrete subclass supplies. -/
structure subclass_t where
  src_pd : Option memory_pd_t
  weights_pd : Int → Option memory_pd_t
  dst_pd : Option memory_pd_t

/-- The constructor: `primitive_desc_t(engine, base_pkind)`, `desc_(*adesc)`,
`hint_fwd_pd_(hint_fwd_pd)`; the subclass's virtual functions come with the
object. -/
def _convolution_fwd_pd_t.ctor {with_relu : Bool} (sub : subclass_t) (engine : ptr_t)
    (adesc : base_desc_t with_relu) (hint_fwd_pd : ptr_t) :
    _convolution_fwd_pd_t with_relu :=
  { engine_ := engine
    kind_ := base_pkind with_relu
    desc_ := adesc
    hint_fwd_pd_ := hint_fwd_pd
    src_pd := sub.src_pd
    weights_pd := sub.weights_pd
    dst_pd := sub.dst_pd }

namespace _convolution_fwd_pd_t

variable {with_relu : Bool}

/-- The accessor `desc()`: the stored top-level parameter struct. -/
def desc (pd : _convolution_fwd_pd_t with_relu) : base_desc_t with_relu := pd.desc_

/-- The two specializations of `cdesc_()`: `desc_` for the plain variant,
`desc_.convolution_desc` for the fused one. -/
def cdesc_ : {with_relu : Bool} → _convolution_fwd_pd_t with_relu → convolution_desc_t
  | false, pd => pd.desc_
  | true, pd => pd.desc_.convolution_desc

/-- The accessor `cdesc()`. -/
def cdesc (pd : _convolution_fwd_pd_t with_relu) : convolution_desc_t := cdesc_ pd

/-- The two specializations of `negative_slope()`: `0.` for the plain variant,
`desc()->negative_slope` for the fused one. -/
def negative_slope : {with_relu : Bool} → _convolution_fwd_pd_t with_relu → double
  | false, _ => double.zero
  | true, pd => (desc pd).negative_slope

/-- The member `with_bias()`. -/
def with_bias (pd : _convolution_fwd_pd_t with_relu) : Bool :=
  !memory_desc_wrapper.is_zero (cdesc_ pd).bias_desc

/-- The member `with_groups()`. -/
def with_groups (pd : _convolution_fwd_pd_t with_relu) : Bool :=
  (cdesc_ pd).weights_desc.ndims == wrap_int ((cdesc_ pd).src_desc.ndims + 1)

/-- The conversion of a `bool` to `int` in `2 + with_bias()`. -/
def int_of_bool (b : Bool) : Int := if b then 1 else 0

/-- The conversion of a `bool` to an array index in `2 + with_groups()`. -/
def nat_of_bool (b : Bool) : Nat := if b then 1 else 0

/-- The member `input_pd(index)`. -/
def input_pd (pd : _convolution_fwd_pd_t with_relu) (index : Int) : Option memory_pd_t :=
  if index = 0 then pd.src_pd
  else if index = 1 ∨ index = 2 then pd.weights_pd (index - 1)
  else none

/-- The member `output_pd(index)`. -/
def output_pd (pd : _convolution_fwd_pd_t with_relu) (index : Int) : Option memory_pd_t :=
  if index = 0 then pd.dst_pd else none

/-- The member `n_inputs()`. -/
def n_inputs (pd : _convolution_fwd_pd_t with_relu) : Int := 2 + int_of_bool (with_bias pd)

/-- The member `n_outputs()`. -/
def n_outputs (_pd : _convolution_fwd_pd_t with_relu) : Int := 1

/-- The member `MB()`. -/
def MB (pd : _convolution_fwd_pd_t with_relu) : Int := (cdesc_ pd).src_desc.dims.item 0

/-- The member `IC()`. -/
def IC (pd : _convolution_fwd_pd_t with_relu) : Int := (cdesc_ pd).src_desc.dims.item 1

/-- The member `OC()`. -/
def OC (pd : _convolution_fwd_pd_t with_relu) : Int := (cdesc_ pd).dst_desc.dims.item 1

/-- The member `G()`. -/
def G (pd : _convolution_fwd_pd_t with_relu) : Int :=
  if with_groups pd then (cdesc_ pd).weights_desc.dims.item 0 else 1

/-- The member `IH()`. -/
def IH (pd : _convolution_fwd_pd_t with_relu) : Int := (cdesc_ pd).src_desc.dims.item 2

/-- The member `IW()`. -/
def IW (pd : _convolution_fwd_pd_t with_relu) : Int := (cdesc_ pd).src_desc.dims.item 3

/-- The member `OH()`. -/
def OH (pd : _convolution_fwd_pd_t with_relu) : Int := (cdesc_ pd).dst_desc.dims.item 2

/-- The member `OW()`. -/
def OW (pd : _convolution_fwd_pd_t with_relu) : Int := (cdesc_ pd).dst_desc.dims.item 3

/-- The member `KH()`. -/
def KH (pd : _convolution_fwd_pd_t with_relu) : Int :=
  (cdesc_ pd).weights_desc.dims.item (2 + nat_of_bool (with_groups pd))

/-- The member `KW()`. -/
def KW (pd : _convolution_fwd_pd_t with_relu) : Int :=
  (cdesc_ pd).weights_desc.dims.item (3 + nat_of_bool (with_groups pd))

/-- The member `KSH()`. -/
def KSH (pd : _convolution_fwd_pd_t with_relu) : Int := (cdesc_ pd).strides.item 0

/-- The member `KSW()`. -/
def KSW (pd : _convolution_fwd_pd_t with_relu) : Int := (cdesc_ pd).strides.item 1

/-- The member `padT()`. -/
def padT (pd : _convolution_fwd_pd_t with_relu) : Int := (cdesc_ pd).padding_at 0 0

/-- The member `padB()`. -/
def padB (pd : _convolution_fwd_pd_t with_relu) : Int := (cdesc_ pd).padding_at 1 0

/-- The member `padL()`. -/
def padL (pd : _convolution_fwd_pd_t with_relu) : Int := (cdesc_ pd).padding_at 0 1

/-- The member `padR()`. -/
def padR (pd : _convolution_fwd_pd_t with_relu) : Int := (cdesc_ pd).padding_at 1 1

/-- The content of the untyped slot `void *result` of `query`: what the caller
left there, or the typed value a query wrote. -/
inductive result_t (with_relu : Bool) where
  | unwritten
  | op_desc (d : base_desc_t with_relu)
  | engine (e : ptr_t)
  | kind (k : primitive_kind_t)
  | s32 (n : Int)
  | memory_pd (m : Option memory_pd_t)

/-- The signature of the base fallback `primitive_desc_t::query` as seen from
this class: object, query kind, index and slot content before the call give
the status and the slot content after the call. -/
abbrev base_query_t (with_relu : Bool) :=
  _convolution_fwd_pd_t with_relu → query_t → Int → result_t with_relu →
    status_t × result_t with_relu

/-- The member `query(what, idx, result)`.  The base fallback
`primitive_desc_t::query`, defined in `primitive_desc.hpp`, is the parameter
`primitive_desc_t_query`. -/
def query (primitive_desc_t_query : base_query_t with_relu)
    (pd : _convolution_fwd_pd_t with_relu) (what : query_t) (idx : Int)
    (result : result_t with_relu) : status_t × result_t with_relu :=
  if what = pkind_trait.query_d (base_pkind with_relu) then
    (status_t.success, result_t.op_desc (desc pd))
  else primitive_desc_t_query pd what idx result

/-- The member `op_desc()`: the pointer `desc()` returns, reinterpreted as a
pointer to `op_desc_t`. -/
def op_desc (pd : _convolution_fwd_pd_t with_relu) : op_desc_t := ⟨with_relu, desc pd⟩

/-- A call of one of the public `const` members of the class: the accessors,
the slot functions and `query`. -/
inductive call_t where
  | desc
  | cdesc
  | op_desc
  | input_pd (index : Int)
  | output_pd (index : Int)
  | n_inputs
  | n_outputs
  | query (what : query_t) (idx : Int)
  | MB
  | IC
  | OC
  | G
  | IH
  | IW
  | OH
  | OW
  | KH
  | KW
  | KSH
  | KSW
  | padT
  | padB
  | padL
  | padR
  | negative_slope
  | with_bias
  | with_groups

/-- The effect of one call on the pair of the object and the caller's result
slot.  Every one of these members is declared `const`, as are the base
`query` and the subclass's slot functions they call, so the object after the
call is the object before it; `query` alone has an out-parameter and leaves in
the slot what it wrote. -/
def call_t.exec (primitive_desc_t_query : base_query_t with_relu) :
    call_t → _convolution_fwd_pd_t with_relu × result_t with_relu →
      _convolution_fwd_pd_t with_relu × result_t with_relu
  | .query what idx, (pd, result) =>
    (pd, (_convolution_fwd_pd_t.query primitive_desc_t_query pd what idx result).2)
  | _, state => state

/-- A sequence of calls, executed one after the other. -/
def run (primitive_desc_t_query : base_query_t with_relu) (calls : List call_t)
    (state : _convolution_fwd_pd_t with_relu × result_t with_relu) :
    _convolution_fwd_pd_t with_relu × result_t with_relu :=
  calls.foldl (fun st c => c.exec primitive_desc_t_query st) state

/-- The three shape descriptors a dimension accessor indexes. -/
inductive tensor_t where
  | src
  | weights
  | dst
deriving DecidableEq, Repr

/-- The memory descriptor of the core parameter struct a tag stands for:
`src_desc`, `weights_desc` or `dst_desc`. -/
def tensor_t.md (d : convolution_desc_t) : tensor_t → memory_desc_t
  | .src => d.src_desc
  | .weights => d.weights_desc
  | .dst => d.dst_desc

/-- The dimension accessors `MB()` to `KW()`. -/
inductive dim_accessor_t where
  | MB
  | IC
  | OC
  | G
  | IH
  | IW
  | OH
  | OW
  | KH
  | KW
deriving DecidableEq, Repr

/-- The array element a dimension accessor reads, as the array and the index
written in its body: `G()` reads `weights_desc.dims[0]` only when
`with_groups()` holds and reads nothing otherwise. -/
def dim_accessor_t.read (pd : _convolution_fwd_pd_t with_relu) :
    dim_accessor_t → Option (tensor_t × Nat)
  | .MB => some (.src, 0)
  | .IC => some (.src, 1)
  | .OC => some (.dst, 1)
  | .G => if with_groups pd then some (.weights, 0) else none
  | .IH => some (.src, 2)
  | .IW => some (.src, 3)
  | .OH => some (.dst, 2)
  | .OW => some (.dst, 3)
  | .KH => some (.weights, 2 + nat_of_bool (with_groups pd))
  | .KW => some (.weights, 3 + nat_of_bool (with_groups pd))

/-- The value a dimension accessor returns. -/
def dim_accessor_t.value (pd : _convolution_fwd_pd_t with_relu) : dim_accessor_t → Int
  | .MB => _convolution_fwd_pd_t.MB pd
  | .IC => _convolution_fwd_pd_t.IC pd
  | .OC => _convolution_fwd_pd_t.OC pd
  | .G => _convolution_fwd_pd_t.G pd
  | .IH => _convolution_fwd_pd_t.IH pd
  | .IW => _convolution_fwd_pd_t.IW pd
  | .OH => _convolution_fwd_pd_t.OH pd
  | .OW => _convolution_fwd_pd_t.OW pd
  | .KH => _convolution_fwd_pd_t.KH pd
  | .KW => _convolution_fwd_pd_t.KW pd

end _convolution_fwd_pd_t

/-- Modelled from the spec: the base fallback `primitive_desc_t::query`
(defined in `primitive_desc.hpp`, which is not among the sources).  It
"recognizes a small set of universal kinds (e.g., engine, number-of-inputs,
number-of-outputs) and signals unsupported for anything else", leaving the
slot as it was. -/
def primitive_desc_t.query {with_relu : Bool} : _convolution_fwd_pd_t.base_query_t with_relu :=
  fun pd what _idx result =>
    match what with
    | query_t.engine => (status_t.success, .engine pd.engine_)
    | query_t.num_of_inputs_s32 => (status_t.success, .s32 (_convolution_fwd_pd_t.n_inputs pd))
    | query_t.num_of_outputs_s32 => (status_t.success, .s32 (_convolution_fwd_pd_t.n_outputs pd))
    | _ => (status_t.unimplemented, result)

/-! ## Example objects -/

namespace example_data

/-- The all-zero memory descriptor, the "no bias" value. -/
def zero_md : memory_desc_t := ⟨0, []⟩

/-- Source `[8, 3, 32, 32]`. -/
def src_md : memory_desc_t := ⟨4, [8, 3, 32, 32]⟩

/-- Weights without groups `[16, 3, 3, 3]`. -/
def weights_md : memory_desc_t := ⟨4, [16, 3, 3, 3]⟩

/-- Weights with groups `[2, 16, 3, 3, 3]`. -/
def grouped_weights_md : memory_desc_t := ⟨5, [2, 16, 3, 3, 3]⟩

/-- Bias `[16]`. -/
def bias_md : memory_desc_t := ⟨1, [16]⟩

/-- Destination `[8, 16, 30, 30]`. -/
def dst_md : memory_desc_t := ⟨4, [8, 16, 30, 30]⟩

/-- Plain parameters without groups and without bias. -/
def conv_nobias : convolution_desc_t :=
  { src_desc := src_md, weights_desc := weights_md, bias_desc := zero_md,
    dst_desc := dst_md, strides := [1, 1], padding := [[0, 0], [0, 0]] }

/-- Plain parameters without groups, with a bias. -/
def conv_bias : convolution_desc_t := { conv_nobias with bias_desc := bias_md }

/-- Plain parameters with groups, without bias, with distinct kernel extents,
strides and paddings. -/
def conv_grouped : convolution_desc_t :=
  { src_desc := src_md, weights_desc := ⟨5, [2, 16, 3, 5, 7]⟩, bias_desc := zero_md,
    dst_desc := dst_md, strides := [2, 3], padding := [[1, 2], [3, 4]] }

/-- A subclass that stores the bias descriptor unconditionally: `weights_pd(0)`
is the weights storage, `weights_pd(1)` the bias storage, whether or not the
operator has a bias. -/
def eager_sub (d : convolution_desc_t) : subclass_t :=
  { src_pd := some ⟨d.src_desc⟩
    weights_pd := fun i =>
      if i = 0 then some ⟨d.weights_desc⟩ else if i = 1 then some ⟨d.bias_desc⟩ else none
    dst_pd := some ⟨d.dst_desc⟩ }

/-- A subclass that hands out the bias storage only when the operator has a
bias: `weights_pd(1)` is null for the all-zero bias descriptor. -/
def gated_sub (d : convolution_desc_t) : subclass_t :=
  { src_pd := some ⟨d.src_desc⟩
    weights_pd := fun i =>
      if i = 0 then some ⟨d.weights_desc⟩
      else if i = 1 ∧ memory_desc_wrapper.is_zero d.bias_desc = false then some ⟨d.bias_desc⟩
      else none
    dst_pd := some ⟨d.dst_desc⟩ }

/-- A plain descriptor without bias over the eager subclass. -/
def eager_nobias_pd : convolution_fwd_pd_t :=
  _convolution_fwd_pd_t.ctor (eager_sub conv_nobias) (some 1) conv_nobias none

/-- A plain descriptor without bias over the gated subclass. -/
def gated_nobias_pd : convolution_fwd_pd_t :=
  _convolution_fwd_pd_t.ctor (gated_sub conv_nobias) (some 1) conv_nobias none

/-- A plain descriptor with bias over the gated subclass. -/
def gated_bias_pd : convolution_fwd_pd_t :=
  _convolution_fwd_pd_t.ctor (gated_sub conv_bias) (some 1) conv_bias none

/-- A plain descriptor with groups over the gated subclass. -/
def grouped_pd : convolution_fwd_pd_t :=
  _convolution_fwd_pd_t.ctor (gated_sub conv_grouped) (some 1) conv_grouped none

/-- A fused descriptor with bias over the gated subclass, negative slope with
bit pattern 7. -/
def fused_pd : convolution_relu_fwd_pd_t :=
  _convolution_fwd_pd_t.ctor (gated_sub conv_bias) (some 1) ⟨conv_bias, ⟨7⟩⟩ (some 2)

end example_data

/-! ## Theorems -/

open _convolution_fwd_pd_t

/-- C1, as stated, fails.  On the plain descriptor without bias over the
subclass that returns its bias storage for `weights_pd(1)` unconditionally,
`with_bias()` is false and `n_inputs()` is 2, so index 2 is at or past
`n_inputs()`, and yet `input_pd(2)` is present: it is the subclass's
`weights_pd(1)`. -/
theorem input_pd_bias_slot_counterexample :
    with_bias example_data.eager_nobias_pd = false ∧
    n_inputs example_data.eager_nobias_pd = 2 ∧
    n_inputs example_data.eager_nobias_pd ≤ 2 ∧
    input_pd example_data.eager_nobias_pd 2 = some ⟨example_data.zero_md⟩ ∧
    input_pd example_data.eager_nobias_pd 2 ≠ none := by
  decide

/-- C1, amended.  For every descriptor (plain or fused) whose subclass returns
a non-null `weights_pd(1)` exactly when `with_bias()` is true: `input_pd(2)` is
that `weights_pd(1)`, it is present if and only if `with_bias()` is true, it is
absent when `with_bias()` is false (where `n_inputs()` is 2), and `input_pd(i)`
is absent for every index `i ≥ n_inputs()`. -/
theorem input_pd_bias_slot_of_gated_subclass {with_relu : Bool}
    (pd : _convolution_fwd_pd_t with_relu)
    (hsub : pd.weights_pd 1 ≠ none ↔ with_bias pd = true) :
    input_pd pd 2 = pd.weights_pd 1 ∧
    (input_pd pd 2 ≠ none ↔ with_bias pd = true) ∧
    (with_bias pd = false → n_inputs pd = 2 ∧ input_pd pd 2 = none) ∧
    (∀ i : Int, n_inputs pd ≤ i → input_pd pd i = none) := by
  have h2 : input_pd pd 2 = pd.weights_pd 1 := by
    simp [input_pd]
  have hnone : with_bias pd = false → pd.weights_pd 1 = none := by
    intro hb
    by_contra hc
    have := hsub.mp hc
    simp [hb] at this
  refine ⟨h2, ?_, ?_, ?_⟩
  · rw [h2]
    exact hsub
  · intro hb
    refine ⟨?_, ?_⟩
    · simp [n_inputs, int_of_bool, hb]
    · rw [h2]
      exact hnone hb
  · intro i hi
    cases hb : with_bias pd with
    | false =>
      have hn : n_inputs pd = 2 := by simp [n_inputs, int_of_bool, hb]
      rw [hn] at hi
      by_cases hi2 : i = 2
      · subst hi2
        rw [h2]
        exact hnone hb
      · have h0 : i ≠ 0 := by omega
        have h1 : i ≠ 1 := by omega
        simp [input_pd, h0, h1, hi2]
    | true =>
      have hn : n_inputs pd = 3 := by simp [n_inputs, int_of_bool, hb]
      rw [hn] at hi
      have h0 : i ≠ 0 := by omega
      have h1 : i ≠ 1 := by omega
      have hi2 : i ≠ 2 := by omega
      simp [input_pd, h0, h1, hi2]

/-- Witness for C1, amended: the plain descriptor without bias over the gated
subclass satisfies the subclass condition, so slot 2 equals `weights_pd(1)`,
is absent, and every index from `n_inputs() = 2` on is absent. -/
theorem input_pd_bias_slot_of_gated_subclass_witness :
    (example_data.gated_nobias_pd.weights_pd 1 ≠ none ↔
      with_bias example_data.gated_nobias_pd = true) ∧
    (input_pd example_data.gated_nobias_pd 2 = example_data.gated_nobias_pd.weights_pd 1 ∧
     (input_pd example_data.gated_nobias_pd 2 ≠ none ↔
        with_bias example_data.gated_nobias_pd = true) ∧
     (with_bias example_data.gated_nobias_pd = false →
        n_inputs example_data.gated_nobias_pd = 2 ∧
        input_pd example_data.gated_nobias_pd 2 = none) ∧
     (∀ i : Int, n_inputs example_data.gated_nobias_pd ≤ i →
        input_pd example_data.gated_nobias_pd i = none)) :=
  ⟨by decide, input_pd_bias_slot_of_gated_subclass example_data.gated_nobias_pd (by decide)⟩

/-- C2.  For every descriptor: `input_pd(0)` is `src_pd()`, `input_pd(1)` is
`weights_pd(0)`, and `input_pd(index)` is absent for every integer index other
than 0, 1 and 2 (every negative index and every index from 3 on among them).
The mapping looks at nothing but the index and the subclass-supplied slots:
two descriptors, of either variant, with the same `src_pd` and `weights_pd`
have the same `input_pd` at every index. -/
theorem input_pd_index_mapping {with_relu : Bool} (pd : _convolution_fwd_pd_t with_relu) :
    input_pd pd 0 = pd.src_pd ∧
    input_pd pd 1 = pd.weights_pd 0 ∧
    (∀ index : Int, index ≠ 0 → index ≠ 1 → index ≠ 2 → input_pd pd index = none) ∧
    (∀ index : Int, index < 0 → input_pd pd index = none) ∧
    (∀ index : Int, 3 ≤ index → input_pd pd index = none) ∧
    (∀ (other_relu : Bool) (other : _convolution_fwd_pd_t other_relu),
      other.src_pd = pd.src_pd → other.weights_pd = pd.weights_pd →
      ∀ index : Int, input_pd other index = input_pd pd index) := by
  refine ⟨by simp [input_pd], by simp [input_pd], ?_, ?_, ?_, ?_⟩
  · intro index h0 h1 h2
    simp [input_pd, h0, h1, h2]
  · intro index hneg
    have h0 : index ≠ 0 := by omega
    have h1 : index ≠ 1 := by omega
    have h2 : index ≠ 2 := by omega
    simp [input_pd, h0, h1, h2]
  · intro index hbig
    have h0 : index ≠ 0 := by omega
    have h1 : index ≠ 1 := by omega
    have h2 : index ≠ 2 := by omega
    simp [input_pd, h0, h1, h2]
  · intro other_relu other hs hw index
    simp [input_pd, hs, hw]

/-- Witness for C2 on the plain descriptor with bias over the gated subclass:
slots 0 and 1 are the source and the weights storage, indices `-1` and `3` are
absent, and the fused descriptor over the same subclass has the same slot 2. -/
theorem input_pd_index_mapping_witness :
    input_pd example_data.gated_bias_pd 0 = some ⟨example_data.src_md⟩ ∧
    input_pd example_data.gated_bias_pd 1 = some ⟨example_data.weights_md⟩ ∧
    input_pd example_data.gated_bias_pd (-1) = none ∧
    input_pd example_data.gated_bias_pd 3 = none ∧
    input_pd example_data.fused_pd 2 = input_pd example_data.gated_bias_pd 2 :=
  ⟨(input_pd_index_mapping example_data.gated_bias_pd).1,
   (input_pd_index_mapping example_data.gated_bias_pd).2.1,
   (input_pd_index_mapping example_data.gated_bias_pd).2.2.1 (-1)
     (by decide) (by decide) (by decide),
   (input_pd_index_mapping example_data.gated_bias_pd).2.2.2.2.1 3 (by decide),
   (input_pd_index_mapping example_data.gated_bias_pd).2.2.2.2.2 true example_data.fused_pd
     rfl rfl 2⟩

/-- C4.  For every descriptor, over its core parameter struct: if
`with_groups()` is false then `KH()` is `weights_desc.dims[2]` and `KW()` is
`weights_desc.dims[3]`; if `with_groups()` is true then `KH()` is
`weights_desc.dims[3]` and `KW()` is `weights_desc.dims[4]`.  The example of
the claim: whenever the weights have rank 5 and dims `[2, 16, 3, 3, 3]` and the
source has rank 4, `with_groups()` is true, `G()` is 2 and `KH()` is
`dims[3] = 3`. -/
theorem KH_KW_axis {with_relu : Bool} (pd : _convolution_fwd_pd_t with_relu) :
    (with_groups pd = false →
      KH pd = (cdesc_ pd).weights_desc.dims.item 2 ∧
      KW pd = (cdesc_ pd).weights_desc.dims.item 3) ∧
    (with_groups pd = true →
      KH pd = (cdesc_ pd).weights_desc.dims.item 3 ∧
      KW pd = (cdesc_ pd).weights_desc.dims.item 4) ∧
    ((cdesc_ pd).weights_desc = ⟨5, [2, 16, 3, 3, 3]⟩ → (cdesc_ pd).src_desc.ndims = 4 →
      with_groups pd = true ∧ G pd = 2 ∧
      KH pd = (cdesc_ pd).weights_desc.dims.item 3 ∧ KH pd = 3) := by
  refine ⟨?_, ?_, ?_⟩
  · intro h
    simp [KH, KW, h, nat_of_bool]
  · intro h
    simp [KH, KW, h, nat_of_bool]
  · intro hw hs
    have hg : with_groups pd = true := by
      simp [with_groups, hw, hs]
      decide
    refine ⟨hg, ?_, ?_, ?_⟩
    · simp [G, hg, hw, dims_t.item]
    · simp [KH, hg, nat_of_bool]
    · simp [KH, hg, hw, nat_of_bool, dims_t.item]

/-- Witness for C4: on the grouped descriptor with weights `[2, 16, 3, 5, 7]`
the kernel extents are axes 3 and 4 (5 and 7, not axis 2, which holds 3); on
the descriptor without groups with weights `[16, 3, 3, 3]` they are axes 2
and 3. -/
theorem KH_KW_axis_witness :
    (with_groups example_data.grouped_pd = true ∧
      KH example_data.grouped_pd = 5 ∧ KW example_data.grouped_pd = 7) ∧
    (with_groups example_data.gated_bias_pd = false ∧
      KH example_data.gated_bias_pd = 3 ∧ KW example_data.gated_bias_pd = 3) :=
  ⟨⟨by decide, (KH_KW_axis example_data.grouped_pd).2.1 (by decide)⟩,
   ⟨by decide, (KH_KW_axis example_data.gated_bias_pd).1 (by decide)⟩⟩

/-- C5.  For every descriptor, over its core parameter struct: `with_bias()`
is false exactly when `bias_desc` is the zero memory descriptor (`is_zero()`
holds of it), and then `n_inputs()` is 2; otherwise `with_bias()` is true and
`n_inputs()` is 3.  Equivalently `n_inputs()` is 2 plus 1 if `with_bias()`
else 0, and it is always 2 or 3. -/
theorem with_bias_and_n_inputs {with_relu : Bool} (pd : _convolution_fwd_pd_t with_relu) :
    (with_bias pd = false ↔ memory_desc_wrapper.is_zero (cdesc_ pd).bias_desc = true) ∧
    (memory_desc_wrapper.is_zero (cdesc_ pd).bias_desc = true →
      with_bias pd = false ∧ n_inputs pd = 2) ∧
    (memory_desc_wrapper.is_zero (cdesc_ pd).bias_desc = false →
      with_bias pd = true ∧ n_inputs pd = 3) ∧
    n_inputs pd = 2 + (if with_bias pd = true then 1 else 0) ∧
    (n_inputs pd = 2 ∨ n_inputs pd = 3) := by
  refine ⟨by simp [with_bias], ?_, ?_, by simp [n_inputs, int_of_bool], ?_⟩
  · intro h
    simp [with_bias, n_inputs, int_of_bool, h]
  · intro h
    simp [with_bias, n_inputs, int_of_bool, h]
  · cases h : with_bias pd <;> simp [n_inputs, int_of_bool, h]

/-- Witness for C5: the descriptor with the all-zero bias descriptor has two
inputs, the descriptor with bias `[16]` has three. -/
theorem with_bias_and_n_inputs_witness :
    (with_bias example_data.gated_nobias_pd = false ∧
      n_inputs example_data.gated_nobias_pd = 2) ∧
    (with_bias example_data.gated_bias_pd = true ∧
      n_inputs example_data.gated_bias_pd = 3) :=
  ⟨(with_bias_and_n_inputs example_data.gated_nobias_pd).2.1 (by decide),
   (with_bias_and_n_inputs example_data.gated_bias_pd).2.2.1 (by decide)⟩

/-- C6.  For every descriptor and every integer index: `output_pd(index)` is
`dst_pd()` when the index is 0 and absent for every other index, negative or
positive; `n_outputs()` is 1; hence `output_pd(i)` is absent for every
`i ≥ n_outputs()`. -/
theorem output_pd_index_mapping {with_relu : Bool} (pd : _convolution_fwd_pd_t with_relu) :
    output_pd pd 0 = pd.dst_pd ∧
    (∀ index : Int, index ≠ 0 → output_pd pd index = none) ∧
    n_outputs pd = 1 ∧
    (∀ i : Int, n_outputs pd ≤ i → output_pd pd i = none) := by
  refine ⟨by simp [output_pd], ?_, rfl, ?_⟩
  · intro index h
    simp [output_pd, h]
  · intro i hi
    have h0 : i ≠ 0 := by
      simp only [n_outputs] at hi
      omega
    simp [output_pd, h0]

/-- Witness for C6 on the plain descriptor with bias: slot 0 is the
destination storage, indices `-1` and `1` are absent. -/
theorem output_pd_index_mapping_witness :
    output_pd example_data.gated_bias_pd 0 = some ⟨example_data.dst_md⟩ ∧
    output_pd example_data.gated_bias_pd (-1) = none ∧
    output_pd example_data.gated_bias_pd 1 = none :=
  ⟨(output_pd_index_mapping example_data.gated_bias_pd).1,
   (output_pd_index_mapping example_data.gated_bias_pd).2.1 (-1) (by decide),
   (output_pd_index_mapping example_data.gated_bias_pd).2.2.2 1 (by decide)⟩

/-- C7.  For every plain-variant descriptor, whatever its parameters,
`negative_slope()` is exactly `0.`; for every fused-variant descriptor
constructed from a fused parameter struct `f`, `negative_slope()` is exactly
`f.negative_slope`. -/
theorem negative_slope_of_variant :
    (∀ pd : convolution_fwd_pd_t, negative_slope pd = double.zero) ∧
    (∀ (sub : subclass_t) (engine : ptr_t) (f : convolution_relu_desc_t) (hint : ptr_t),
      negative_slope (ctor sub engine f hint : convolution_relu_fwd_pd_t) = f.negative_slope) ∧
    (∀ pd : convolution_relu_fwd_pd_t, negative_slope pd = pd.desc_.negative_slope) :=
  ⟨fun _ => rfl, fun _ _ _ _ => rfl, fun _ => rfl⟩

/-- C8.  For every descriptor, every index and every prior content of the
result slot, whatever the base fallback is: `query` with the query kind of the
class's own operator kind `base_pkind` returns `success` and leaves in the
result slot the stored operator descriptor, the value `desc()` returns.  A
constructed descriptor carries `base_pkind` as its operator-kind tag, so this
is the query kind of the descriptor's own tag, and the value written is the
parameter struct it was constructed from. -/
theorem query_own_kind {with_relu : Bool} (base : base_query_t with_relu)
    (pd : _convolution_fwd_pd_t with_relu) (idx : Int) (result : result_t with_relu)
    (sub : subclass_t) (engine : ptr_t) (adesc : base_desc_t with_relu) (hint : ptr_t) :
    query base pd (pkind_trait.query_d (base_pkind with_relu)) idx result =
      (status_t.success, result_t.op_desc (desc pd)) ∧
    (ctor sub engine adesc hint : _convolution_fwd_pd_t with_relu).kind_ = base_pkind with_relu ∧
    query base (ctor sub engine adesc hint)
        (pkind_trait.query_d (ctor sub engine adesc hint : _convolution_fwd_pd_t with_relu).kind_)
        idx result =
      (status_t.success, result_t.op_desc adesc) := by
  refine ⟨by simp [query], rfl, ?_⟩
  simp [query, ctor, desc]

/-- C9.  For every descriptor and every query kind other than the class's own
kind, whatever the base fallback is: `query` returns exactly what the base
`primitive_desc_t::query` returns on the same kind, index and untouched result
slot.  Consequently, when the base answers `unimplemented` there, so does
`query`, and its status is not `success`. -/
theorem query_other_kind_forwards {with_relu : Bool} (base : base_query_t with_relu)
    (pd : _convolution_fwd_pd_t with_relu) (what : query_t) (idx : Int)
    (result : result_t with_relu)
    (hne : what ≠ pkind_trait.query_d (base_pkind with_relu)) :
    query base pd what idx result = base pd what idx result ∧
    ((base pd what idx result).1 = status_t.unimplemented →
      (query base pd what idx result).1 = status_t.unimplemented ∧
      (query base pd what idx result).1 ≠ status_t.success ∧
      (query base pd what idx result).2 = (base pd what idx result).2) := by
  have hfw : query base pd what idx result = base pd what idx result := by
    simp [query, hne]
  refine ⟨hfw, ?_⟩
  intro hb
  rw [hfw, hb]
  exact ⟨rfl, by decide, rfl⟩

/-- Witness for C9 with the base fallback of the spec on the plain descriptor
with bias: the softmax descriptor kind is not the class's own kind, the base
answers `unimplemented` for it, and so does `query`. -/
theorem query_other_kind_forwards_witness :
    query_t.softmax_d ≠ pkind_trait.query_d (base_pkind false) ∧
    (primitive_desc_t.query example_data.gated_bias_pd query_t.softmax_d 0
        result_t.unwritten).1 = status_t.unimplemented ∧
    (query primitive_desc_t.query example_data.gated_bias_pd query_t.softmax_d 0
        result_t.unwritten).1 = status_t.unimplemented ∧
    (query primitive_desc_t.query example_data.gated_bias_pd query_t.softmax_d 0
        result_t.unwritten).1 ≠ status_t.success :=
  ⟨by decide, by decide,
   ((query_other_kind_forwards primitive_desc_t.query example_data.gated_bias_pd
      query_t.softmax_d 0 result_t.unwritten (by decide)).2 (by decide)).1,
   ((query_other_kind_forwards primitive_desc_t.query example_data.gated_bias_pd
      query_t.softmax_d 0 result_t.unwritten (by decide)).2 (by decide)).2.1⟩

/-- C10.  For every fused parameter struct `f = ⟨cd, c⟩`, every accessor among
`MB`, `IC`, `OC`, `G`, `IH`, `IW`, `OH`, `OW`, `KH`, `KW`, `KSH`, `KSW`,
`padT`, `padB`, `padL`, `padR`, `with_bias`, `with_groups` and `n_inputs` of
the fused descriptor built from `f` returns what the same accessor of the plain
descriptor built from the embedded `cd` returns, whatever engine, hint and
subclass either is built with.  As `c` is arbitrary, none of them depends on
the negative slope.  `cdesc()` is the stored struct itself for the plain
variant and its `convolution_desc` field for the fused variant. -/
theorem fused_accessors_eq_plain (cd : convolution_desc_t) (c : double)
    (sub sub2 : subclass_t) (engine engine2 hint hint2 : ptr_t) :
    (∀ pd : convolution_fwd_pd_t, cdesc pd = pd.desc_) ∧
    (∀ pd : convolution_relu_fwd_pd_t, cdesc pd = pd.desc_.convolution_desc) ∧
    cdesc (ctor sub2 engine2 cd hint2 : convolution_fwd_pd_t) = cd ∧
    cdesc (ctor sub engine (⟨cd, c⟩ : convolution_relu_desc_t) hint :
      convolution_relu_fwd_pd_t) = cd ∧
    MB (ctor sub engine (⟨cd, c⟩ : convolution_relu_desc_t) hint : convolution_relu_fwd_pd_t) =
      MB (ctor sub2 engine2 cd hint2 : convolution_fwd_pd_t) ∧
    IC (ctor sub engine (⟨cd, c⟩ : convolution_relu_desc_t) hint : convolution_relu_fwd_pd_t) =
      IC (ctor sub2 engine2 cd hint2 : convolution_fwd_pd_t) ∧
    OC (ctor sub engine (⟨cd, c⟩ : convolution_relu_desc_t) hint : convolution_relu_fwd_pd_t) =
      OC (ctor sub2 engine2 cd hint2 : convolution_fwd_pd_t) ∧
    G (ctor sub engine (⟨cd, c⟩ : convolution_relu_desc_t) hint : convolution_relu_fwd_pd_t) =
      G (ctor sub2 engine2 cd hint2 : convolution_fwd_pd_t) ∧
    IH (ctor sub engine (⟨cd, c⟩ : convolution_relu_desc_t) hint : convolution_relu_fwd_pd_t) =
      IH (ctor sub2 engine2 cd hint2 : convolution_fwd_pd_t) ∧
    IW (ctor sub engine (⟨cd, c⟩ : convolution_relu_desc_t) hint : convolution_relu_fwd_pd_t) =
      IW (ctor sub2 engine2 cd hint2 : convolution_fwd_pd_t) ∧
    OH (ctor sub engine (⟨cd, c⟩ : convolution_relu_desc_t) hint : convolution_relu_fwd_pd_t) =
      OH (ctor sub2 engine2 cd hint2 : convolution_fwd_pd_t) ∧
    OW (ctor sub engine (⟨cd, c⟩ : convolution_relu_desc_t) hint : convolution_relu_fwd_pd_t) =
      OW (ctor sub2 engine2 cd hint2 : convolution_fwd_pd_t) ∧
    KH (ctor sub engine (⟨cd, c⟩ : convolution_relu_desc_t) hint : convolution_relu_fwd_pd_t) =
      KH (ctor sub2 engine2 cd hint2 : convolution_fwd_pd_t) ∧
    KW (ctor sub engine (⟨cd, c⟩ : convolution_relu_desc_t) hint : convolution_relu_fwd_pd_t) =
      KW (ctor sub2 engine2 cd hint2 : convolution_fwd_pd_t) ∧
    KSH (ctor sub engine (⟨cd, c⟩ : convolution_relu_desc_t) hint : convolution_relu_fwd_pd_t) =
      KSH (ctor sub2 engine2 cd hint2 : convolution_fwd_pd_t) ∧
    KSW (ctor sub engine (⟨cd, c⟩ : convolution_relu_desc_t) hint : convolution_relu_fwd_pd_t) =
      KSW (ctor sub2 engine2 cd hint2 : convolution_fwd_pd_t) ∧
    padT (ctor sub engine (⟨cd, c⟩ : convolution_relu_desc_t) hint : convolution_relu_fwd_pd_t) =
      padT (ctor sub2 engine2 cd hint2 : convolution_fwd_pd_t) ∧
    padB (ctor sub engine (⟨cd, c⟩ : convolution_relu_desc_t) hint : convolution_relu_fwd_pd_t) =
      padB (ctor sub2 engine2 cd hint2 : convolution_fwd_pd_t) ∧
    padL (ctor sub engine (⟨cd, c⟩ : convolution_relu_desc_t) hint : convolution_relu_fwd_pd_t) =
      padL (ctor sub2 engine2 cd hint2 : convolution_fwd_pd_t) ∧
    padR (ctor sub engine (⟨cd, c⟩ : convolution_relu_desc_t) hint : convolution_relu_fwd_pd_t) =
      padR (ctor sub2 engine2 cd hint2 : convolution_fwd_pd_t) ∧
    with_bias (ctor sub engine (⟨cd, c⟩ : convolution_relu_desc_t) hint : convolution_relu_fwd_pd_t) =
      with_bias (ctor sub2 engine2 cd hint2 : convolution_fwd_pd_t) ∧
    with_groups (ctor sub engine (⟨cd, c⟩ : convolution_relu_desc_t) hint : convolution_relu_fwd_pd_t) =
      with_groups (ctor sub2 engine2 cd hint2 : convolution_fwd_pd_t) ∧
    n_inputs (ctor sub engine (⟨cd, c⟩ : convolution_relu_desc_t) hint : convolution_relu_fwd_pd_t) =
      n_inputs (ctor sub2 engine2 cd hint2 : convolution_fwd_pd_t) := by
  refine ⟨fun _ => rfl, fun _ => rfl, rfl, rfl, ?_⟩
  refine ⟨rfl, rfl, rfl, rfl, rfl, rfl, rfl, rfl, rfl, rfl, rfl, rfl, rfl, rfl, rfl, rfl, rfl,
    rfl, rfl⟩

/-- C11, as stated, fails.  On the grouped descriptor, whose padding table is
`[[1, 2], [3, 4]]`, `padB()` is 3, the entry `padding[1][0]`, and not the entry
`padding[0][1] = 2` the claim names; likewise `padL()` is 2, the entry
`padding[0][1]`, and not `padding[1][0] = 3`. -/
theorem pad_axis_then_side_counterexample :
    padB example_data.grouped_pd = 3 ∧
    (cdesc_ example_data.grouped_pd).padding_at 0 1 = 2 ∧
    padB example_data.grouped_pd ≠ (cdesc_ example_data.grouped_pd).padding_at 0 1 ∧
    padL example_data.grouped_pd = 2 ∧
    (cdesc_ example_data.grouped_pd).padding_at 1 0 = 3 ∧
    padL example_data.grouped_pd ≠ (cdesc_ example_data.grouped_pd).padding_at 1 0 := by
  decide

/-- C11, amended.  The padding table is indexed first by side (0 = begin,
1 = end) and then by spatial axis (0 = height, 1 = width): for every
descriptor, over its core parameter struct, `padT()` is `padding[0][0]`,
`padB()` is `padding[1][0]`, `padL()` is `padding[0][1]` and `padR()` is
`padding[1][1]`.  So `padT` and `padB` are the begin and end entries of the
height axis (second index 0), `padL` and `padR` those of the width axis (second
index 1).  The reading of the claim (`padB` at `[0][1]`, `padL` at `[1][0]`)
holds exactly on the tables whose entries `[0][1]` and `[1][0]` coincide. -/
theorem pad_side_then_axis {with_relu : Bool} (pd : _convolution_fwd_pd_t with_relu) :
    padT pd = (cdesc_ pd).padding_at 0 0 ∧
    padB pd = (cdesc_ pd).padding_at 1 0 ∧
    padL pd = (cdesc_ pd).padding_at 0 1 ∧
    padR pd = (cdesc_ pd).padding_at 1 1 ∧
    ((padB pd = (cdesc_ pd).padding_at 0 1 ∧ padL pd = (cdesc_ pd).padding_at 1 0) ↔
      (cdesc_ pd).padding_at 0 1 = (cdesc_ pd).padding_at 1 0) := by
  refine ⟨rfl, rfl, rfl, rfl, ?_⟩
  show ((cdesc_ pd).padding_at 1 0 = (cdesc_ pd).padding_at 0 1 ∧
      (cdesc_ pd).padding_at 0 1 = (cdesc_ pd).padding_at 1 0) ↔
    (cdesc_ pd).padding_at 0 1 = (cdesc_ pd).padding_at 1 0
  constructor
  · intro h
    exact h.2
  · intro h
    exact ⟨h.symm, h⟩

/-- C12.  For every plain descriptor whose stored parameters are source
`[8, 3, 32, 32]` (rank 4), weights `[16, 3, 3, 3]` (rank 4), destination
`[8, 16, 30, 30]`, strides `[1, 1]`, all-zero padding and the zero bias
descriptor: `MB() = 8`, `IC() = 3`, `OC() = 16`, `G() = 1`, `KH() = 3`,
`KW() = 3`, `with_bias()` is false, `n_inputs() = 2`, `IH() = IW() = 32`,
`OH() = OW() = 30` and `KSH() = KSW() = 1`.  In general, for every descriptor
of either variant, `MB`, `IC`, `IH`, `IW` read source dims 0, 1, 2, 3, `OC`,
`OH`, `OW` read destination dims 1, 2, 3, and `KSH`, `KSW` read strides 0, 1. -/
theorem example_scenario_accessors {with_relu : Bool} (any_pd : _convolution_fwd_pd_t with_relu)
    (pd : convolution_fwd_pd_t)
    (hdesc : pd.desc_ =
      { src_desc := ⟨4, [8, 3, 32, 32]⟩
        weights_desc := ⟨4, [16, 3, 3, 3]⟩
        bias_desc := ⟨0, []⟩
        dst_desc := ⟨4, [8, 16, 30, 30]⟩
        strides := [1, 1]
        padding := [[0, 0], [0, 0]] }) :
    (MB pd = 8 ∧ IC pd = 3 ∧ OC pd = 16 ∧ G pd = 1 ∧ KH pd = 3 ∧ KW pd = 3 ∧
      with_bias pd = false ∧ n_inputs pd = 2 ∧
      IH pd = 32 ∧ IW pd = 32 ∧ OH pd = 30 ∧ OW pd = 30 ∧ KSH pd = 1 ∧ KSW pd = 1) ∧
    (MB any_pd = (cdesc_ any_pd).src_desc.dims.item 0 ∧
      IC any_pd = (cdesc_ any_pd).src_desc.dims.item 1 ∧
      IH any_pd = (cdesc_ any_pd).src_desc.dims.item 2 ∧
      IW any_pd = (cdesc_ any_pd).src_desc.dims.item 3 ∧
      OC any_pd = (cdesc_ any_pd).dst_desc.dims.item 1 ∧
      OH any_pd = (cdesc_ any_pd).dst_desc.dims.item 2 ∧
      OW any_pd = (cdesc_ any_pd).dst_desc.dims.item 3 ∧
      KSH any_pd = (cdesc_ any_pd).strides.item 0 ∧
      KSW any_pd = (cdesc_ any_pd).strides.item 1) := by
  have hc : cdesc_ pd = pd.desc_ := rfl
  refine ⟨?_, rfl, rfl, rfl, rfl, rfl, rfl, rfl, rfl, rfl⟩
  simp only [MB, IC, OC, G, KH, KW, with_bias, n_inputs, IH, IW, OH, OW, KSH, KSW,
    with_groups, hc, hdesc]
  decide

/-- Witness for C12: the plain descriptor without bias of the examples stores
exactly the parameters of the scenario. -/
theorem example_scenario_accessors_witness :
    MB example_data.gated_nobias_pd = 8 ∧ IC example_data.gated_nobias_pd = 3 ∧
    OC example_data.gated_nobias_pd = 16 ∧ G example_data.gated_nobias_pd = 1 ∧
    KH example_data.gated_nobias_pd = 3 ∧ KW example_data.gated_nobias_pd = 3 ∧
    with_bias example_data.gated_nobias_pd = false ∧
    n_inputs example_data.gated_nobias_pd = 2 ∧
    IH example_data.gated_nobias_pd = 32 ∧ IW example_data.gated_nobias_pd = 32 ∧
    OH example_data.gated_nobias_pd = 30 ∧ OW example_data.gated_nobias_pd = 30 ∧
    KSH example_data.gated_nobias_pd = 1 ∧ KSW example_data.gated_nobias_pd = 1 :=
  (example_scenario_accessors example_data.fused_pd example_data.gated_nobias_pd rfl).1

/-- One call leaves the object as it was. -/
theorem call_exec_fst {with_relu : Bool} (base : base_query_t with_relu) (c : call_t)
    (state : _convolution_fwd_pd_t with_relu × result_t with_relu) :
    (c.exec base state).1 = state.1 := by
  cases c <;> rfl

/-- A sequence of calls leaves the object as it was. -/
theorem run_fst {with_relu : Bool} (base : base_query_t with_relu) (calls : List call_t)
    (state : _convolution_fwd_pd_t with_relu × result_t with_relu) :
    (run base calls state).1 = state.1 := by
  induction calls generalizing state with
  | nil => rfl
  | cons c rest ih =>
    have hstep : run base (c :: rest) state = run base rest (c.exec base state) := rfl
    rw [hstep, ih, call_exec_fst]

/-- C13.  For every engine `e`, parameter struct `d` and hint `h` (null or
not), of either variant and over any subclass: the constructed descriptor
stores `d` (`desc()` is `d`), `op_desc()` is a view of that same stored value,
the stored hint is `h`, the stored engine is `e`, and the operator-kind tag is
`base_pkind`, which is `convolution` for the plain variant and
`convolution_relu` for the fused one.  After any sequence of accessor, slot
and query calls, whatever the base fallback and the prior content of the result
slot, the object is the constructed one: `desc()` is still `d`, and hint and
kind are unchanged. -/
theorem ctor_stores_and_calls_preserve {with_relu : Bool} (sub : subclass_t) (e : ptr_t)
    (d : base_desc_t with_relu) (h : ptr_t) (base : base_query_t with_relu)
    (calls : List call_t) (result : result_t with_relu) :
    desc (ctor sub e d h) = d ∧
    op_desc (ctor sub e d h) = ⟨with_relu, desc (ctor sub e d h)⟩ ∧
    op_desc (ctor sub e d h) = ⟨with_relu, d⟩ ∧
    (ctor sub e d h : _convolution_fwd_pd_t with_relu).hint_fwd_pd_ = h ∧
    (ctor sub e d h : _convolution_fwd_pd_t with_relu).engine_ = e ∧
    (ctor sub e d h : _convolution_fwd_pd_t with_relu).kind_ = base_pkind with_relu ∧
    base_pkind false = primitive_kind_t.convolution ∧
    base_pkind true = primitive_kind_t.convolution_relu ∧
    (run base calls (ctor sub e d h, result)).1 = ctor sub e d h ∧
    desc (run base calls (ctor sub e d h, result)).1 = d ∧
    (run base calls (ctor sub e d h, result)).1.hint_fwd_pd_ = h ∧
    (run base calls (ctor sub e d h, result)).1.kind_ = base_pkind with_relu := by
  have hrun : (run base calls (ctor sub e d h, result)).1 = ctor sub e d h :=
    run_fst base calls (ctor sub e d h, result)
  refine ⟨rfl, rfl, rfl, rfl, rfl, rfl, rfl, rfl, hrun, ?_, ?_, ?_⟩
  · rw [hrun]
    rfl
  · rw [hrun]
    rfl
  · rw [hrun]
    rfl

/-- C14.  A plain descriptor answers the `convolution_d` query kind itself,
with `success` and its stored `convolution_desc_t`, and forwards the
`convolution_relu_d` kind to the base fallback; a fused descriptor answers
`convolution_relu_d` itself, with `success` and its stored
`convolution_relu_desc_t`, and forwards `convolution_d` to the base fallback.
For each variant every query kind other than the own one is forwarded, and
exactly one query kind is answered with `success` and the stored descriptor
whatever the base fallback is. -/
theorem query_kind_variant_specific :
    (∀ (base : base_query_t false) (pd : convolution_fwd_pd_t) (idx : Int)
        (result : result_t false),
      query base pd query_t.convolution_d idx result =
        (status_t.success, result_t.op_desc pd.desc_) ∧
      query base pd query_t.convolution_relu_d idx result =
        base pd query_t.convolution_relu_d idx result) ∧
    (∀ (base : base_query_t true) (pd : convolution_relu_fwd_pd_t) (idx : Int)
        (result : result_t true),
      query base pd query_t.convolution_relu_d idx result =
        (status_t.success, result_t.op_desc pd.desc_) ∧
      query base pd query_t.convolution_d idx result =
        base pd query_t.convolution_d idx result) ∧
    (∀ (with_relu : Bool) (what : query_t),
      what ≠ pkind_trait.query_d (base_pkind with_relu) →
      ∀ (base : base_query_t with_relu) (pd : _convolution_fwd_pd_t with_relu) (idx : Int)
        (result : result_t with_relu),
        query base pd what idx result = base pd what idx result) ∧
    (∀ with_relu : Bool, ∃! what : query_t,
      ∀ (base : base_query_t with_relu) (pd : _convolution_fwd_pd_t with_relu) (idx : Int)
        (result : result_t with_relu),
        query base pd what idx result = (status_t.success, result_t.op_desc (desc pd))) := by
  refine ⟨?_, ?_, ?_, ?_⟩
  · intro base pd idx result
    exact ⟨rfl, rfl⟩
  · intro base pd idx result
    exact ⟨rfl, rfl⟩
  · intro with_relu what hne base pd idx result
    simp [query, hne]
  · intro with_relu
    refine ⟨pkind_trait.query_d (base_pkind with_relu), ?_, ?_⟩
    · intro base pd idx result
      simp [query]
    · intro what hall
      by_contra hne
      have hfw : ∀ (pd : _convolution_fwd_pd_t with_relu),
          query (fun _ _ _ r => (status_t.unimplemented, r)) pd what 0 result_t.unwritten =
            (status_t.unimplemented, result_t.unwritten) := by
        intro pd
        simp [query, hne]
      have hst : ∀ (pd : _convolution_fwd_pd_t with_relu),
          status_t.unimplemented = status_t.success := by
        intro pd
        have h1 := hall (fun _ _ _ r => (status_t.unimplemented, r)) pd 0 result_t.unwritten
        rw [hfw pd] at h1
        exact congrArg Prod.fst h1
      cases with_relu with
      | false => exact absurd (hst example_data.gated_bias_pd) (by decide)
      | true => exact absurd (hst example_data.fused_pd) (by decide)

/-- Witness for C14 on the plain descriptor with bias and the base fallback of
the spec: `convolution_d` is answered with the stored descriptor, and
`convolution_relu_d`, which is not the plain variant's own kind, goes to the
fallback, which answers `unimplemented`. -/
theorem query_kind_variant_specific_witness :
    query primitive_desc_t.query example_data.gated_bias_pd query_t.convolution_d 0
        result_t.unwritten =
      (status_t.success, result_t.op_desc example_data.conv_bias) ∧
    query primitive_desc_t.query example_data.gated_bias_pd query_t.convolution_relu_d 0
        result_t.unwritten =
      (status_t.unimplemented, result_t.unwritten) :=
  ⟨(query_kind_variant_specific.1 primitive_desc_t.query example_data.gated_bias_pd 0
      result_t.unwritten).1,
   query_kind_variant_specific.2.2.1 false query_t.convolution_relu_d (by decide)
      primitive_desc_t.query example_data.gated_bias_pd 0 result_t.unwritten⟩

/-- C15.  For every descriptor, any two indices (negative and arbitrarily
large ones among them), any two prior contents of the result slot and any base
fallback: `query` with the class's own kind returns `success` and the stored
descriptor at both indices, so the two calls give the same result; no index is
out of range for the own-kind query. -/
theorem query_own_kind_index_independent {with_relu : Bool} (base : base_query_t with_relu)
    (pd : _convolution_fwd_pd_t with_relu) (idx1 idx2 : Int)
    (result1 result2 : result_t with_relu) :
    query base pd (pkind_trait.query_d (base_pkind with_relu)) idx1 result1 =
      (status_t.success, result_t.op_desc (desc pd)) ∧
    query base pd (pkind_trait.query_d (base_pkind with_relu)) idx2 result2 =
      (status_t.success, result_t.op_desc (desc pd)) ∧
    query base pd (pkind_trait.query_d (base_pkind with_relu)) idx1 result1 =
      query base pd (pkind_trait.query_d (base_pkind with_relu)) idx2 result2 := by
  have hown : ∀ (idx : Int) (result : result_t with_relu),
      query base pd (pkind_trait.query_d (base_pkind with_relu)) idx result =
        (status_t.success, result_t.op_desc (desc pd)) := by
    intro idx result
    simp [query]
  exact ⟨hown idx1 result1, hown idx2 result2, by rw [hown idx1 result1, hown idx2 result2]⟩

/-- C16.  For every descriptor, `input_pd(2)` is the subclass-supplied
`weights_pd(1)` and `input_pd(1)` is `weights_pd(0)`, whatever `with_bias()`
returns.  The mapping consults neither `with_bias()` nor `n_inputs()`: a
descriptor of either variant with the same subclass slots has the same
`input_pd` at every index, whatever its parameters are; and for a descriptor
without bias slot 2 is absent exactly when the subclass's `weights_pd(1)`
is. -/
theorem input_pd_ignores_with_bias {with_relu : Bool} (pd : _convolution_fwd_pd_t with_relu) :
    input_pd pd 2 = pd.weights_pd 1 ∧
    input_pd pd 1 = pd.weights_pd 0 ∧
    (∀ (other_relu : Bool) (other : _convolution_fwd_pd_t other_relu),
      other.src_pd = pd.src_pd → other.weights_pd = pd.weights_pd →
      ∀ index : Int, input_pd other index = input_pd pd index) ∧
    (with_bias pd = false → (input_pd pd 2 = none ↔ pd.weights_pd 1 = none)) := by
  have h2 : input_pd pd 2 = pd.weights_pd 1 := by
    simp [input_pd]
  refine ⟨h2, by simp [input_pd], ?_, ?_⟩
  · intro other_relu other hs hw index
    unfold input_pd
    rw [hs, hw]
  · intro _
    rw [h2]

/-- Witness for C16: the two plain descriptors over the same eager subclass,
one without bias (two inputs) and one with bias (three inputs), have the same
slot 2, which is present. -/
theorem input_pd_ignores_with_bias_witness :
    with_bias example_data.eager_nobias_pd = false ∧
    n_inputs example_data.eager_nobias_pd = 2 ∧
    with_bias (ctor (example_data.eager_sub example_data.conv_nobias) none
      example_data.conv_bias none : convolution_fwd_pd_t) = true ∧
    n_inputs (ctor (example_data.eager_sub example_data.conv_nobias) none
      example_data.conv_bias none : convolution_fwd_pd_t) = 3 ∧
    input_pd (ctor (example_data.eager_sub example_data.conv_nobias) none
      example_data.conv_bias none : convolution_fwd_pd_t) 2 =
      input_pd example_data.eager_nobias_pd 2 ∧
    (input_pd example_data.eager_nobias_pd 2 = none ↔
      example_data.eager_nobias_pd.weights_pd 1 = none) ∧
    input_pd example_data.eager_nobias_pd 2 = some ⟨example_data.zero_md⟩ :=
  ⟨by decide, by decide, by decide, by decide,
   (input_pd_ignores_with_bias example_data.eager_nobias_pd).2.2.1 false
     (ctor (example_data.eager_sub example_data.conv_nobias) none
       example_data.conv_bias none) rfl rfl 2,
   (input_pd_ignores_with_bias example_data.eager_nobias_pd).2.2.2 (by decide),
   by decide⟩

/-- C17.  For every descriptor whose core parameter struct has source rank 4,
destination rank 4 and weights rank 4 or 5: every array element a dimension
accessor among `MB`, `IC`, `OC`, `G`, `IH`, `IW`, `OH`, `OW`, `KH`, `KW` reads
has an index strictly below the rank (`ndims`) of the descriptor it indexes;
`KW()` reads weights index 3 when the weights rank is 4 and index 4 when it is
5; and the weights indices `2 + with_groups()` and `3 + with_groups()` are at
most 4.  The value each accessor returns is the element it reads (and 1 for
`G()` when it reads none). -/
theorem dim_accessor_reads_below_rank {with_relu : Bool} (pd : _convolution_fwd_pd_t with_relu)
    (hsrc : (cdesc_ pd).src_desc.ndims = 4) (hdst : (cdesc_ pd).dst_desc.ndims = 4)
    (hwei : (cdesc_ pd).weights_desc.ndims = 4 ∨ (cdesc_ pd).weights_desc.ndims = 5) :
    (∀ (a : dim_accessor_t) (t : tensor_t) (i : Nat),
      a.read pd = some (t, i) → (i : Int) < (t.md (cdesc_ pd)).ndims) ∧
    (∀ a : dim_accessor_t,
      a.value pd =
        match a.read pd with
        | some (t, i) => (t.md (cdesc_ pd)).dims.item i
        | none => 1) ∧
    ((cdesc_ pd).weights_desc.ndims = 4 →
      dim_accessor_t.KW.read pd = some (tensor_t.weights, 3)) ∧
    ((cdesc_ pd).weights_desc.ndims = 5 →
      dim_accessor_t.KW.read pd = some (tensor_t.weights, 4)) ∧
    2 + nat_of_bool (with_groups pd) ≤ 4 ∧
    3 + nat_of_bool (with_groups pd) ≤ 4 := by
  have hg4 : (cdesc_ pd).weights_desc.ndims = 4 → with_groups pd = false := by
    intro h
    simp [with_groups, h, hsrc]
    decide
  have hg5 : (cdesc_ pd).weights_desc.ndims = 5 → with_groups pd = true := by
    intro h
    simp [with_groups, h, hsrc]
    decide
  have hnb : nat_of_bool (with_groups pd) ≤ 1 := by
    cases with_groups pd <;> simp [nat_of_bool]
  refine ⟨?_, ?_, ?_, ?_, by omega, by omega⟩
  · intro a t i hread
    rcases hwei with h4 | h5
    · have hg := hg4 h4
      cases a <;> simp [dim_accessor_t.read, hg, nat_of_bool] at hread <;>
        obtain ⟨rfl, rfl⟩ := hread <;> simp [tensor_t.md, hsrc, hdst, h4]
    · have hg := hg5 h5
      cases a <;> simp [dim_accessor_t.read, hg, nat_of_bool] at hread <;>
        obtain ⟨rfl, rfl⟩ := hread <;> simp [tensor_t.md, hsrc, hdst, h5]
  · intro a
    cases a
    case G =>
      cases hg : with_groups pd <;>
        simp [dim_accessor_t.value, dim_accessor_t.read, G, hg, tensor_t.md]
    all_goals rfl
  · intro h4
    simp [dim_accessor_t.read, hg4 h4, nat_of_bool]
  · intro h5
    simp [dim_accessor_t.read, hg5 h5, nat_of_bool]

/-- Witness for C17: the grouped descriptor (source and destination rank 4,
weights rank 5) reads `KW()` at weights index 4, below 5, and the descriptor
without groups (weights rank 4) reads it at index 3, below 4. -/
theorem dim_accessor_reads_below_rank_witness :
    (dim_accessor_t.KW.read example_data.grouped_pd = some (tensor_t.weights, 4) ∧
      ((4 : Nat) : Int) < (tensor_t.weights.md (cdesc_ example_data.grouped_pd)).ndims) ∧
    (dim_accessor_t.KW.read example_data.gated_bias_pd = some (tensor_t.weights, 3) ∧
      ((3 : Nat) : Int) < (tensor_t.weights.md (cdesc_ example_data.gated_bias_pd)).ndims) :=
  ⟨⟨(dim_accessor_reads_below_rank example_data.grouped_pd (by decide) (by decide)
        (by decide)).2.2.2.1 (by decide),
    (dim_accessor_reads_below_rank example_data.grouped_pd (by decide) (by decide)
        (by decide)).1 dim_accessor_t.KW tensor_t.weights 4 (by decide)⟩,
   ⟨(dim_accessor_reads_below_rank example_data.gated_bias_pd (by decide) (by decide)
        (by decide)).2.2.1 (by decide),
    (dim_accessor_reads_below_rank example_data.gated_bias_pd (by decide) (by decide)
        (by decide)).1 dim_accessor_t.KW tensor_t.weights 3 (by decide)⟩⟩

end mkldnn.impl
